import Mathlib

/-!
Verification of the plugin-registry validator (`scripts/validate.js`).

The JavaScript validator is shallowly embedded: every JS function becomes a
Lean function of the same name, JS objects become structures whose optional
fields are `Option`-typed (`none` models an absent property, i.e. the JS
value `undefined`), JS truthiness of string-valued fields is `strTruthy`,
and `throw` / `try-catch` control flow becomes `Except`.  Two generations of
the script coexist in the source; the earlier one is embedded as
`validateBaseFields` / `validatePlugin(s)` and the extended one (which adds
the required `home` field and the remote `package.json` check) as
`validateBaseFieldsExt` / `validatePluginExt`.  The platform primitives the
script calls (`new Date`, `new URL`, `fetch`) are modelled explicitly:
calendar validity of ISO date-time strings, a WHATWG-style URL parse
predicate, and a pluggable fetch oracle together with a log of the URLs
actually fetched.
-/

/-- JS truthiness of a possibly-absent string property: `undefined` and the
empty string are falsy, every other string is truthy. -/
def strTruthy : Option String → Bool
  | none => false
  | some s => s ≠ ""

/-- The `license` object of a plugin record: `{name, url}`.  A missing
sub-field is modelled as the empty string, which is what the validator's
truthiness tests observe. -/
structure License where
  name : String
  url : String
  deriving DecidableEq

/-- One entry of the `author` array: `{name, home}`. -/
structure Author where
  name : String
  home : Option String
  deriving DecidableEq

/-- One entry of the `repo` array: `{type, url, branch}`. -/
structure Repo where
  type : String
  url : Option String
  branch : Option String
  deriving DecidableEq

/-- One plugin record of `plugins.json`.  `none` models an absent property. -/
structure Plugin where
  name : Option String
  type : Option String
  description : Option String
  license : Option License
  time : Option String
  author : Option (List Author)
  repo : Option (List Repo)
  home : Option String := none
  files : Option (List String) := none
  deriving DecidableEq

/-- The distinct errors the validator can throw.  Each constructor carries
the plugin name mentioned in the corresponding JS error message. -/
inductive VErr where
  | missingField (pname : Option String) (field : String)
  | invalidTimestamp (pname : Option String)
  | descriptionTooLong (pname : Option String)
  | invalidLicense (pname : Option String)
  | invalidAuthorFormat (pname : Option String)
  | invalidRepoFormat (pname : Option String)
  | invalidVariant (pname : Option String) (ty : Option String)
  | invalidHomepage (pname : Option String)
  | missingAuthorName (pname : Option String)
  | invalidAuthorHomepage (pname : Option String)
  | invalidRepoKind (pname : Option String) (kind : String)
  | invalidRepoUrl (pname : Option String)
  | missingFiles (pname : Option String)
  | invalidFileUrl (pname : Option String) (url : String)
  | duplicateName (pname : Option String)
  | unexpectedBranch (pname : Option String)
  | missingBranch (pname : Option String)
  | unsupportedRepoType (kind : String)
  | remoteFetchFailed (pname : Option String) (url : String)
  | remoteManifestIncomplete (pname : Option String) (field : String)
  | repoValidationFailed (pname : Option String) (url : Option String) (inner : VErr)
  deriving DecidableEq

/-- Numeric value of a decimal digit character. -/
def digit (c : Char) : Nat := c.toNat - 48

/-- Gregorian leap-year rule, as used by the ECMAScript `Date` object. -/
def isLeapYear (y : Nat) : Bool :=
  (y % 4 == 0 && y % 100 != 0) || (y % 400 == 0)

/-- Number of days of month `m` (1-based) of year `y`. -/
def daysInMonth (y m : Nat) : Nat :=
  if m = 1 ∨ m = 3 ∨ m = 5 ∨ m = 7 ∨ m = 8 ∨ m = 10 ∨ m = 12 then 31
  else if m = 4 ∨ m = 6 ∨ m = 9 ∨ m = 11 then 30
  else if m = 2 then (if isLeapYear y then 29 else 28)
  else 0

/-- Validity of the fields of a `YYYY-MM-DDTHH:mm:ss` string under the
ECMAScript Date Time String Format (what `new Date` checks for such
strings): month 1..12, day within the month, and either a clock time with
hour ≤ 23 or the end-of-day form `24:00:00`. -/
def jsIsoDateTimeValid (y m d hh mi ss : Nat) : Bool :=
  1 ≤ m && m ≤ 12 && 1 ≤ d && d ≤ daysInMonth y m &&
    ((hh ≤ 23 && mi ≤ 59 && ss ≤ 59) || (hh == 24 && mi == 0 && ss == 0))

/-- Field extraction from a string of the exact shape
`NNNN-NN-NN NN:NN:NN` (the shape tested by the validator's regular
expression `^\d(4)-\d(2)-\d(2) \d(2):\d(2):\d(2)$`); `none` when the string
does not have that shape. -/
def timeFields (s : String) : Option (Nat × Nat × Nat × Nat × Nat × Nat) :=
  match s.data with
  | [a, b, c, d, s1, e, f, s2, g, h, s3, i, j, s4, k, l, s5, m, n] =>
      if a.isDigit && b.isDigit && c.isDigit && d.isDigit && s1 == '-' &&
         e.isDigit && f.isDigit && s2 == '-' && g.isDigit && h.isDigit &&
         s3 == ' ' && i.isDigit && j.isDigit && s4 == ':' && k.isDigit &&
         l.isDigit && s5 == ':' && m.isDigit && n.isDigit then
        some (digit a * 1000 + digit b * 100 + digit c * 10 + digit d,
              digit e * 10 + digit f,
              digit g * 10 + digit h,
              digit i * 10 + digit j,
              digit k * 10 + digit l,
              digit m * 10 + digit n)
      else none
  | _ => none

/-- The lexical test of the validator: the regular expression
`^\d(4)-\d(2)-\d(2) \d(2):\d(2):\d(2)$` matches exactly when the 19
characters have the digit/separator shape above. -/
def matchesTimePattern (s : String) : Bool :=
  (timeFields s).isSome

/-- `isValidTimeFormat` of `validate.js`: the regular expression must match,
and `new Date(time.replace(' ', 'T'))` must not be an Invalid Date.  The
space is at a fixed position of the matched shape, so the replacement
leaves the six numeric fields unchanged and the `Date` step is exactly the
calendar check `jsIsoDateTimeValid` on those fields. -/
def isValidTimeFormat (time : String) : Bool :=
  match timeFields time with
  | none => false
  | some (y, m, d, hh, mi, ss) => jsIsoDateTimeValid y m d hh mi ss

/-- Characters allowed after the first character of a URL scheme. -/
def schemeChar (c : Char) : Bool :=
  c.isAlpha || c.isDigit || c == '+' || c == '-' || c == '.'

/-- Splits `scheme ':' rest` at the first colon, requiring every character
before the colon to be a scheme character; `none` when the input has no
such prefix. -/
def takeScheme : List Char → Option (List Char × List Char)
  | [] => none
  | c :: rest =>
      if c == ':' then some ([], rest)
      else if schemeChar c then
        match takeScheme rest with
        | some (sch, r) => some (c :: sch, r)
        | none => none
      else none

/-- The WHATWG special schemes other than `file`: these require a host. -/
def specialSchemes : List String := ["http", "https", "ws", "wss", "ftp"]

/-- Host characters that make the parse of a special-scheme URL fail.  The
model keeps only the whitespace cases; the remaining forbidden host code
points do not occur in any input considered here. -/
def hostForbidden (c : Char) : Bool :=
  c == ' ' || c == '\t' || c == '\n'

/-- Model of whether `new URL(url)` succeeds (the WHATWG basic URL parser,
restricted to the distinctions this validator can observe): the input must
start with an ASCII letter followed by scheme characters and a colon; a
special scheme such as `https` additionally needs a nonempty host after the
slashes, while `file` and every non-special scheme (e.g. `mailto`) accept
the remainder as an opaque path with no authority required. -/
def urlParseSucceeds (url : String) : Bool :=
  match url.data with
  | [] => false
  | c :: _ =>
      if !c.isAlpha then false
      else
        match takeScheme url.data with
        | none => false
        | some (sch, rest) =>
            let scheme := String.mk (sch.map Char.toLower)
            if specialSchemes.contains scheme then
              let afterSlashes := rest.dropWhile (fun x => x == '/' || x == '\\')
              let host := afterSlashes.takeWhile
                (fun x => !(x == '/' || x == '\\' || x == '?' || x == '#' || x == ':'))
              !host.isEmpty && host.all (fun x => !hostForbidden x)
            else true

/-- `isValidUrl` of `validate.js`: `try (new URL(url); return true) catch
(return false)` — true exactly when the URL parse succeeds, never throws. -/
def isValidUrl (url : String) : Bool :=
  urlParseSucceeds url

/-- The earlier schema's required-field list, in source order. -/
def requiredFields : List String :=
  ["name", "type", "description", "license", "time", "author", "repo"]

/-- The extended schema's required-field list: the earlier one plus `home`. -/
def requiredFieldsExt : List String :=
  ["name", "type", "description", "license", "time", "author", "repo", "home"]

/-- JS truthiness of `plugin[field]` for each required-field name.  String
fields are truthy when present and nonempty; the `license` object and the
`author` / `repo` arrays are truthy whenever present (a JS object or array,
even an empty array, is truthy). -/
def fieldTruthy (p : Plugin) : String → Bool
  | "name" => strTruthy p.name
  | "type" => strTruthy p.type
  | "description" => strTruthy p.description
  | "license" => p.license.isSome
  | "time" => strTruthy p.time
  | "author" => p.author.isSome
  | "repo" => p.repo.isSome
  | "home" => strTruthy p.home
  | _ => false

/-- The `for (const field of requiredFields)` loop of `validateBaseFields`:
throws `缺少必填字段` (MissingField) at the first falsy field. -/
def checkRequired (p : Plugin) : List String → Except VErr Unit
  | [] => .ok ()
  | f :: fs =>
      if fieldTruthy p f then checkRequired p fs
      else .error (.missingField p.name f)

/-- The condition of the license check of `validateBaseFields`:
`!plugin.license.name || !plugin.license.url || !isValidUrl(plugin.license.url)`. -/
def licenseBad (l : License) : Bool :=
  l.name == "" || l.url == "" || !isValidUrl l.url

/-- The list `type` of `validateBaseFields` (the five repository kinds);
the membership check of `plugin.type` is taken over this list. -/
def repoKindList : List String :=
  ["github", "gitee", "gitcode", "gitlab", "npm"]

/-- `validateBaseFields` of the earlier script: required fields, timestamp
format, description length, license, author and repo array shape, and the
membership of `plugin.type` in `repoKindList`, throwing at the first
violation. -/
def validateBaseFields (p : Plugin) : Except VErr Unit :=
  match checkRequired p requiredFields with
  | .error e => .error e
  | .ok _ =>
      if !isValidTimeFormat (p.time.getD "") then .error (.invalidTimestamp p.name)
      else if 50 < (p.description.getD "").length then .error (.descriptionTooLong p.name)
      else if licenseBad (p.license.getD ⟨"", ""⟩) then .error (.invalidLicense p.name)
      else if (p.author.getD []).length = 0 then .error (.invalidAuthorFormat p.name)
      else if (p.repo.getD []).length = 0 then .error (.invalidRepoFormat p.name)
      else if !repoKindList.contains (p.type.getD "") then .error (.invalidVariant p.name p.type)
      else .ok ()

/-- `validateBaseFields` of the extended script: same checks over the
extended required-field list, followed by the homepage URL check. -/
def validateBaseFieldsExt (p : Plugin) : Except VErr Unit :=
  match checkRequired p requiredFieldsExt with
  | .error e => .error e
  | .ok _ =>
      if !isValidTimeFormat (p.time.getD "") then .error (.invalidTimestamp p.name)
      else if 50 < (p.description.getD "").length then .error (.descriptionTooLong p.name)
      else if licenseBad (p.license.getD ⟨"", ""⟩) then .error (.invalidLicense p.name)
      else if (p.author.getD []).length = 0 then .error (.invalidAuthorFormat p.name)
      else if (p.repo.getD []).length = 0 then .error (.invalidRepoFormat p.name)
      else if !repoKindList.contains (p.type.getD "") then .error (.invalidVariant p.name p.type)
      else if !isValidUrl (p.home.getD "") then .error (.invalidHomepage p.name)
      else .ok ()

/-- The body of one iteration of `validateAuthor`: author name truthy, then
author homepage truthy and a valid URL. -/
def checkAuthor (pname : Option String) (a : Author) : Except VErr Unit :=
  if a.name == "" then .error (.missingAuthorName pname)
  else if !strTruthy a.home || !isValidUrl (a.home.getD "") then
    .error (.invalidAuthorHomepage pname)
  else .ok ()

/-- The `for (const author of plugin.author)` loop of `validateAuthor`. -/
def validateAuthorList (pname : Option String) : List Author → Except VErr Unit
  | [] => .ok ()
  | a :: rest =>
      match checkAuthor pname a with
      | .error e => .error e
      | .ok _ => validateAuthorList pname rest

/-- `validateAuthor` of `validate.js`. -/
def validateAuthor (p : Plugin) : Except VErr Unit :=
  validateAuthorList p.name (p.author.getD [])

/-- The list `validTypes` of `validateRepo`. -/
def validRepoTypes : List String :=
  ["github", "gitee", "gitlab", "gitcode", "npm"]

/-- The body of one iteration of `validateRepo`: repo kind membership, then
repo URL truthy and valid. -/
def checkRepo (pname : Option String) (r : Repo) : Except VErr Unit :=
  if !validRepoTypes.contains r.type then .error (.invalidRepoKind pname r.type)
  else if !strTruthy r.url || !isValidUrl (r.url.getD "") then
    .error (.invalidRepoUrl pname)
  else .ok ()

/-- The `for (const repo of plugin.repo)` loop of `validateRepo`. -/
def validateRepoList (pname : Option String) : List Repo → Except VErr Unit
  | [] => .ok ()
  | r :: rest =>
      match checkRepo pname r with
      | .error e => .error e
      | .ok _ => validateRepoList pname rest

/-- `validateRepo` of `validate.js`. -/
def validateRepo (p : Plugin) : Except VErr Unit :=
  validateRepoList p.name (p.repo.getD [])

/-- The `for (const fileUrl of plugin.files)` loop of `validateAppPlugin`. -/
def checkFiles (pname : Option String) : List String → Except VErr Unit
  | [] => .ok ()
  | f :: rest =>
      if !isValidUrl f then .error (.invalidFileUrl pname f)
      else checkFiles pname rest

/-- `validateAppPlugin` of `validate.js`: `files` must be a nonempty array
(an absent property is not an array) and every element a valid URL. -/
def validateAppPlugin (p : Plugin) : Except VErr Unit :=
  match p.files with
  | none => .error (.missingFiles p.name)
  | some fs =>
      if fs.length = 0 then .error (.missingFiles p.name)
      else checkFiles p.name fs

/-- The loop of `validateUniquePackages`, carrying the `names` set of
already-seen `plugin.name` values (a JS `Set` holding `undefined` for a
record with no name). -/
def validateUniqueAux (seen : List (Option String)) : List Plugin → Except VErr Unit
  | [] => .ok ()
  | p :: rest =>
      if p.name ∈ seen then .error (.duplicateName p.name)
      else validateUniqueAux (p.name :: seen) rest

/-- `validateUniquePackages` of `validate.js`. -/
def validateUniquePackages (ps : List Plugin) : Except VErr Unit :=
  validateUniqueAux [] ps

/-- The per-record body of the earlier script's `main` loop: base fields,
authors, repositories, then the dispatch on `plugin.type` (`app` runs
`validateAppPlugin`, `git` and `npm` do nothing, anything else throws). -/
def validatePlugin (p : Plugin) : Except VErr Unit :=
  match validateBaseFields p with
  | .error e => .error e
  | .ok _ =>
  match validateAuthor p with
  | .error e => .error e
  | .ok _ =>
  match validateRepo p with
  | .error e => .error e
  | .ok _ =>
      if p.type = some "app" then validateAppPlugin p
      else if p.type = some "git" ∨ p.type = some "npm" then .ok ()
      else .error (.invalidVariant p.name p.type)

/-- The `for (const plugin of plugins)` loop of the earlier script's `main`. -/
def validateAllPlugins : List Plugin → Except VErr Unit
  | [] => .ok ()
  | p :: rest =>
      match validatePlugin p with
      | .error e => .error e
      | .ok _ => validateAllPlugins rest

/-- The earlier script's `main` body after parsing: the uniqueness pass
first, then every record in order. -/
def validatePlugins (ps : List Plugin) : Except VErr Unit :=
  match validateUniquePackages ps with
  | .error e => .error e
  | .ok _ => validateAllPlugins ps

/-- Splits a character list around the first occurrence of `pat`, returning
the part before and the part after it; `none` when `pat` does not occur. -/
def splitAtSub (pat : List Char) : List Char → Option (List Char × List Char)
  | [] => if pat.isEmpty then some ([], []) else none
  | c :: rest =>
      if pat.isPrefixOf (c :: rest) then some ([], (c :: rest).drop pat.length)
      else
        match splitAtSub pat rest with
        | some (pre, suf) => some (c :: pre, suf)
        | none => none

/-- The JS `String.prototype.replace` with a string pattern: replaces the
first occurrence only, returning the input unchanged when the pattern does
not occur. -/
def replaceFirst (s pat sub : String) : String :=
  match splitAtSub pat.data s.data with
  | some (pre, suf) => String.mk pre ++ sub ++ String.mk suf
  | none => s

/-- `getRawFileUrl` of the extended script: the raw `package.json` URL per
repository kind; `none` models the `default` branch throwing
`不支持的仓库类型`. -/
def getRawFileUrl (r : Repo) : Option String :=
  let url := r.url.getD ""
  let branch := r.branch.getD ""
  match r.type with
  | "github" =>
      some (replaceFirst url "github.com" "raw.githubusercontent.com" ++
        "/" ++ branch ++ "/package.json")
  | "gitee" => some (url ++ "/raw/" ++ branch ++ "/package.json")
  | "gitlab" => some (url ++ "/raw/" ++ branch ++ "/package.json")
  | "gitcode" => some (url ++ "/raw/" ++ branch ++ "/package.json")
  | "npm" => some ("https://registry.npmjs.org/" ++ url ++ "/latest")
  | _ => none

/-- The observable outcome of `fetch(rawUrl)` followed by `response.json()`:
the HTTP success flag and the `name` and `version` fields of the parsed
body (the empty string modelling an absent field). -/
structure FetchResponse where
  ok : Bool
  jsonName : String
  jsonVersion : String
  deriving DecidableEq

/-- The `try` body of `validatePackageJson`, instrumented with the list of
URLs passed to `fetch`: the npm branch check (`repo.branch !== ''` throws
`UnexpectedBranch` and an npm repo never fetches), the non-npm `!repo.branch`
check throwing `MissingBranch`, then the fetch of the raw `package.json`
URL and the checks of the response. -/
def validatePackageJsonTry (fetchOracle : String → FetchResponse) (p : Plugin)
    (r : Repo) : Except VErr Unit × List String :=
  if r.type = "npm" then
    if r.branch ≠ some "" then (.error (.unexpectedBranch p.name), [])
    else (.ok (), [])
  else if !strTruthy r.branch then (.error (.missingBranch p.name), [])
  else
    match getRawFileUrl r with
    | none => (.error (.unsupportedRepoType r.type), [])
    | some rawUrl =>
        let resp := fetchOracle rawUrl
        if !resp.ok then (.error (.remoteFetchFailed p.name rawUrl), [rawUrl])
        else if resp.jsonName == "" then
          (.error (.remoteManifestIncomplete p.name "name"), [rawUrl])
        else if resp.jsonVersion == "" then
          (.error (.remoteManifestIncomplete p.name "version"), [rawUrl])
        else (.ok (), [rawUrl])

/-- `validatePackageJson` of the extended script: the `catch` clause wraps
any error of the `try` body with the plugin name and repository URL
(`插件 X 的仓库 Y 验证失败`). -/
def validatePackageJson (fetchOracle : String → FetchResponse) (p : Plugin)
    (r : Repo) : Except VErr Unit × List String :=
  match validatePackageJsonTry fetchOracle p r with
  | (.ok _, log) => (.ok (), log)
  | (.error e, log) => (.error (.repoValidationFailed p.name r.url e), log)

/-- The `for (const repo of plugin.repo) await validatePackageJson(...)`
loop of the extended script's `main`, accumulating the fetched URLs. -/
def validateRepoJsonLoop (fetchOracle : String → FetchResponse) (p : Plugin) :
    List Repo → Except VErr Unit × List String
  | [] => (.ok (), [])
  | r :: rest =>
      match validatePackageJson fetchOracle p r with
      | (.ok _, log) =>
          let next := validateRepoJsonLoop fetchOracle p rest
          (next.1, log ++ next.2)
      | (.error e, log) => (.error e, log)

/-- The per-record body of the extended script's `main` loop: base fields,
authors, repositories, then the remote `package.json` check of every
repository, and only after that the dispatch on `plugin.type`.  The second
component is the list of URLs fetched for the record. -/
def validatePluginExt (fetchOracle : String → FetchResponse) (p : Plugin) :
    Except VErr Unit × List String :=
  match validateBaseFieldsExt p with
  | .error e => (.error e, [])
  | .ok _ =>
  match validateAuthor p with
  | .error e => (.error e, [])
  | .ok _ =>
  match validateRepo p with
  | .error e => (.error e, [])
  | .ok _ =>
  match validateRepoJsonLoop fetchOracle p (p.repo.getD []) with
  | (.error e, log) => (.error e, log)
  | (.ok _, log) =>
      if p.type = some "app" then (validateAppPlugin p, log)
      else if p.type = some "git" ∨ p.type = some "npm" then (.ok (), log)
      else (.error (.invalidVariant p.name p.type), log)

/-- The `for (const plugin of plugins)` loop of the extended script's
`main`. -/
def validateAllPluginsExt (fetchOracle : String → FetchResponse) :
    List Plugin → Except VErr Unit × List String
  | [] => (.ok (), [])
  | p :: rest =>
      match validatePluginExt fetchOracle p with
      | (.ok _, log) =>
          let next := validateAllPluginsExt fetchOracle rest
          (next.1, log ++ next.2)
      | (.error e, log) => (.error e, log)

/-- The extended script's `main` body after parsing: uniqueness first, then
every record. -/
def validatePluginsExt (fetchOracle : String → FetchResponse) (ps : List Plugin) :
    Except VErr Unit × List String :=
  match validateUniquePackages ps with
  | .error e => (.error e, [])
  | .ok _ => validateAllPluginsExt fetchOracle ps

/-- Reading of the spec sentence `scheme + authority at minimum`: the URL
must have a scheme and, after the colon, an authority component introduced
by `//` with a nonempty host. -/
def specUrlSchemeAuthority (url : String) : Bool :=
  match takeScheme url.data with
  | none => false
  | some (_, rest) =>
      match rest with
      | '/' :: '/' :: auth =>
          !(auth.takeWhile (fun x => !(x == '/' || x == '?' || x == '#'))).isEmpty
      | _ => false

/-- A fully valid record of the earlier schema (an npm plugin). -/
def baseOk : Plugin where
  name := some "demo"
  type := some "npm"
  description := some "demo plugin"
  license := some ⟨"MIT", "https://example.com/LICENSE"⟩
  time := some "2025-01-19 10:00:00"
  author := some [⟨"alice", some "https://example.com/alice"⟩]
  repo := some [⟨"npm", some "https://www.npmjs.com/package/demo", some ""⟩]

/-- A record that is valid except that its `type` is the variant `git`. -/
def demoGit : Plugin :=
  { baseOk with name := some "demo-git", type := some "git" }

/-- An app record with a nonempty `files` array of valid URLs. -/
def demoApp : Plugin :=
  { baseOk with
      name := some "demo-app"
      type := some "app"
      files := some ["https://example.com/download/plugin.js"] }

/-- An app record whose `files` array is present but empty. -/
def appEmptyFiles : Plugin :=
  { baseOk with name := some "demo-app-empty", type := some "app", files := some [] }

/-- An app record with no `files` property at all. -/
def appNoFiles : Plugin :=
  { baseOk with name := some "demo-app-nofiles", type := some "app" }

/-- A record whose `type` is the repository kind `github` instead of one of
the three plugin variants. -/
def demoGithubType : Plugin :=
  { baseOk with name := some "demo-hub", type := some "github" }

/-- A record with an invalid timestamp (month 13). -/
def demoBadTime : Plugin :=
  { baseOk with name := some "demo-badtime", time := some "2025-13-01 00:00:00" }

/-- A collection where the first record's name recurs later and the second
record independently has an invalid timestamp. -/
def dupAndBadTime : List Plugin :=
  [{ baseOk with name := some "dup" }, demoBadTime, { baseOk with name := some "dup" }]

/-- A record whose `description` is present but the empty string. -/
def demoEmptyDescription : Plugin :=
  { baseOk with name := some "demo-empty-desc", description := some "" }

/-- Two records that both lack the `name` property. -/
def namelessPair : List Plugin :=
  [{ baseOk with name := none }, { baseOk with name := none, type := some "git" }]

/-- A 50-character description. -/
def desc50 : String := "01234567890123456789012345678901234567890123456789"

/-- A record whose description has exactly 50 characters. -/
def demoDesc50 : Plugin :=
  { baseOk with name := some "demo-50", description := some desc50 }

/-- A record whose description has 51 characters. -/
def demoDesc51 : Plugin :=
  { baseOk with name := some "demo-51", description := some (desc50 ++ "X") }

/-- An npm repository entry carrying a nonempty `branch`. -/
def npmRepoWithBranch : Repo :=
  ⟨"npm", some "https://registry.npmjs.org/demo", some "main"⟩

/-- A github repository entry whose `branch` is the empty string. -/
def githubRepoEmptyBranch : Repo :=
  ⟨"github", some "https://github.com/u/r", some ""⟩

/-- A fetch oracle that answers every request with a failure; the branch
checks must error without consulting it. -/
def failFetch : String → FetchResponse :=
  fun _ => ⟨false, "", ""⟩

/-- A fetch oracle that answers every request with a complete manifest. -/
def okFetch : String → FetchResponse :=
  fun _ => ⟨true, "pkg", "1.0.0"⟩

/-- A record of the extended schema whose `type` is `github`: it passes the
base-field, author and repository checks, so the remote check runs, yet it
fails the later variant dispatch. -/
def demoGithubExt : Plugin :=
  { baseOk with
      name := some "demo-ext"
      type := some "github"
      home := some "https://example.com"
      repo := some [⟨"github", some "https://github.com/u/r", some "main"⟩] }

/-- Decidable equality of `Except` outcomes, so that concrete runs of the
validator can be checked by `decide`. -/
instance {ε α : Type} [DecidableEq ε] [DecidableEq α] : DecidableEq (Except ε α) := fun a b =>
  match a, b with
  | .ok x, .ok y =>
      match decEq x y with
      | isTrue h => isTrue (congrArg Except.ok h)
      | isFalse h => isFalse (fun hh => h (Except.ok.inj hh))
  | .ok _, .error _ => isFalse (fun hh => Except.noConfusion hh)
  | .error _, .ok _ => isFalse (fun hh => Except.noConfusion hh)
  | .error x, .error y =>
      match decEq x y with
      | isTrue h => isTrue (congrArg Except.error h)
      | isFalse h => isFalse (fun hh => h (Except.error.inj hh))

theorem checkRequired_error_of_falsy (p : Plugin) :
    ∀ fs : List String, (∃ f ∈ fs, fieldTruthy p f = false) →
      ∃ f, checkRequired p fs = .error (.missingField p.name f) := by
  intro fs
  induction fs with
  | nil => rintro ⟨f, hf, _⟩; cases hf
  | cons g gs ih =>
      rintro ⟨f, hf, hfalse⟩
      by_cases hg : fieldTruthy p g = true
      · have hf' : f ∈ gs := by
          rcases List.mem_cons.mp hf with h1 | h1
          · subst h1; rw [hg] at hfalse; cases hfalse
          · exact h1
        obtain ⟨f2, hcr⟩ := ih ⟨f, hf', hfalse⟩
        exact ⟨f2, by simpa [checkRequired, hg] using hcr⟩
      · exact ⟨g, by simp [checkRequired, hg]⟩

theorem checkRequired_append_error (p : Plugin) (gs : List String) :
    ∀ fs : List String, ∀ e : VErr, checkRequired p fs = .error e →
      checkRequired p (fs ++ gs) = .error e := by
  intro fs
  induction fs with
  | nil => intro e h; simp [checkRequired] at h
  | cons g rest ih =>
      intro e h
      by_cases hg : fieldTruthy p g = true
      · rw [List.cons_append]
        simp only [checkRequired, hg, if_true] at h ⊢
        exact ih e h
      · rw [List.cons_append]
        simp only [checkRequired, hg, if_false] at h ⊢
        simpa using h

theorem validateBaseFields_error_of_required (p : Plugin) (e : VErr)
    (h : checkRequired p requiredFields = .error e) :
    validateBaseFields p = .error e := by
  unfold validateBaseFields
  rw [h]

theorem validateBaseFieldsExt_error_of_required (p : Plugin) (e : VErr)
    (h : checkRequired p requiredFieldsExt = .error e) :
    validateBaseFieldsExt p = .error e := by
  unfold validateBaseFieldsExt
  rw [h]

theorem validateBaseFields_of_required_ok (p : Plugin)
    (hreq : checkRequired p requiredFields = .ok ()) :
    validateBaseFields p =
      (if !isValidTimeFormat (p.time.getD "") then .error (.invalidTimestamp p.name)
       else if 50 < (p.description.getD "").length then .error (.descriptionTooLong p.name)
       else if licenseBad (p.license.getD ⟨"", ""⟩) then .error (.invalidLicense p.name)
       else if (p.author.getD []).length = 0 then .error (.invalidAuthorFormat p.name)
       else if (p.repo.getD []).length = 0 then .error (.invalidRepoFormat p.name)
       else if !repoKindList.contains (p.type.getD "") then .error (.invalidVariant p.name p.type)
       else .ok ()) := by
  unfold validateBaseFields
  rw [hreq]

theorem validateUniqueAux_error (ps : List Plugin) :
    ∀ seen : List (Option String),
      (¬ (ps.map Plugin.name).Nodup ∨ ∃ n ∈ ps.map Plugin.name, n ∈ seen) →
      ∃ n, validateUniqueAux seen ps = .error (.duplicateName n) := by
  induction ps with
  | nil =>
      intro seen h
      rcases h with h | ⟨n, hn, _⟩
      · exact absurd List.nodup_nil h
      · simp at hn
  | cons p rest ih =>
      intro seen h
      by_cases hmem : p.name ∈ seen
      · exact ⟨p.name, by simp [validateUniqueAux, hmem]⟩
      · have h' : ¬ (rest.map Plugin.name).Nodup ∨
            ∃ n ∈ rest.map Plugin.name, n ∈ p.name :: seen := by
          rcases h with h | ⟨n, hn, hseen⟩
          · rw [List.map_cons, List.nodup_cons] at h
            by_cases hin : p.name ∈ rest.map Plugin.name
            · exact Or.inr ⟨p.name, hin, List.mem_cons_self _ _⟩
            · exact Or.inl (fun hnd => h ⟨hin, hnd⟩)
          · rw [List.map_cons, List.mem_cons] at hn
            rcases hn with rfl | hn
            · exact absurd hseen hmem
            · exact Or.inr ⟨n, hn, List.mem_cons_of_mem _ hseen⟩
        obtain ⟨n, hres⟩ := ih (p.name :: seen) h'
        refine ⟨n, ?_⟩
        simp only [validateUniqueAux, hmem, if_false]
        simpa using hres

theorem validatePlugins_error_of_dup (ps : List Plugin)
    (h : ¬ (ps.map Plugin.name).Nodup) :
    ∃ n, validatePlugins ps = .error (.duplicateName n) := by
  obtain ⟨n, hu⟩ := validateUniqueAux_error ps [] (Or.inl h)
  refine ⟨n, ?_⟩
  unfold validatePlugins validateUniquePackages
  rw [hu]

theorem two_nameless_not_nodup (ps : List Plugin)
    (h : 2 ≤ (ps.filter (fun p => p.name.isNone)).length) :
    ¬ (ps.map Plugin.name).Nodup := by
  induction ps with
  | nil => simp at h
  | cons p rest ih =>
      by_cases hn : p.name.isNone
      · simp only [List.filter_cons, hn, if_true] at h
        have h1 : 1 ≤ (rest.filter (fun p => p.name.isNone)).length := by
          simpa using Nat.le_of_succ_le_succ h
        have hne : rest.filter (fun p => p.name.isNone) ≠ [] := by
          intro hnil
          rw [hnil] at h1
          simp at h1
        obtain ⟨q, hq⟩ := List.exists_mem_of_ne_nil _ hne
        have hqr : q ∈ rest := (List.mem_filter.mp hq).1
        have hqn : q.name.isNone := (List.mem_filter.mp hq).2
        have hpq : p.name = q.name := by
          rw [Option.isNone_iff_eq_none] at hn hqn
          rw [hn, hqn]
        rw [List.map_cons, List.nodup_cons]
        rintro ⟨habs, -⟩
        exact habs (hpq ▸ List.mem_map_of_mem Plugin.name hqr)
      · simp only [List.filter_cons, hn, if_false] at h
        have := ih h
        rw [List.map_cons, List.nodup_cons]
        rintro ⟨-, hnd⟩
        exact this hnd

/-- C1: the spec says the base-field variant-membership check fails with
InvalidVariant exactly when the variant is outside (npm, git, app), so that
git and app records pass it; the code instead tests `plugin.type` against
the five repository kinds, so git and app records always fail with
InvalidVariant while a record whose type is the repository kind github
passes the whole base-field validation. -/
theorem variant_membership_uses_repo_kinds :
    validateBaseFields demoGit = .error (.invalidVariant (some "demo-git") (some "git")) ∧
    validateBaseFields demoApp = .error (.invalidVariant (some "demo-app") (some "app")) ∧
    validateBaseFields demoGithubType = .ok () := by
  exact ⟨by decide, by decide, by decide⟩

/-- C2: `validateAppPlugin` itself behaves as the claim states — empty or
absent `files` gives MissingFiles and a nonempty list of valid URLs
passes — but full validation of an app record never reaches it: the record
already fails `validateBaseFields` with InvalidVariant because the variant
`app` is rejected by the repo-kind membership check. -/
theorem app_files_dispatch :
    validateAppPlugin appEmptyFiles = .error (.missingFiles (some "demo-app-empty")) ∧
    validateAppPlugin appNoFiles = .error (.missingFiles (some "demo-app-nofiles")) ∧
    validateAppPlugin demoApp = .ok () ∧
    validatePlugin appEmptyFiles =
      .error (.invalidVariant (some "demo-app-empty") (some "app")) := by
  exact ⟨by decide, by decide, by decide, by decide⟩

/-- C3: whenever two records of the collection carry the same name, the
whole run returns a DuplicateName error: the uniqueness pass runs before
any per-record validation, so no per-record failure (such as an invalid
timestamp elsewhere) can be reported instead. -/
theorem duplicate_name_reported_first (ps : List Plugin)
    (h : ¬ (ps.map Plugin.name).Nodup) :
    ∃ n, validatePlugins ps = .error (.duplicateName n) :=
  validatePlugins_error_of_dup ps h

/-- Witness for C3: the collection where the first record's name recurs and
the second record independently has an invalid timestamp reports only
DuplicateName. -/
theorem duplicate_name_reported_first_witness :
    ∃ n, validatePlugins dupAndBadTime = .error (.duplicateName n) :=
  duplicate_name_reported_first dupAndBadTime (by decide)

/-- C4: the timestamp check is a total boolean predicate; it accepts the
well-formed example, rejects month 13 although the lexical pattern matches,
rejects the slash-separated form at the pattern itself, and in general
accepts exactly the strings that match the pattern and whose fields form a
calendar-valid date-time. -/
theorem timestamp_check_characterisation :
    isValidTimeFormat "2025-01-19 10:00:00" = true ∧
    matchesTimePattern "2025-13-01 00:00:00" = true ∧
    isValidTimeFormat "2025-13-01 00:00:00" = false ∧
    matchesTimePattern "2025/01/19 10:00:00" = false ∧
    isValidTimeFormat "2025/01/19 10:00:00" = false ∧
    ∀ s, isValidTimeFormat s = true ↔
      (matchesTimePattern s = true ∧
       ∀ y m d hh mi ss, timeFields s = some (y, m, d, hh, mi, ss) →
         jsIsoDateTimeValid y m d hh mi ss = true) := by
  refine ⟨by decide, by decide, by decide, by decide, by decide, ?_⟩
  intro s
  unfold isValidTimeFormat matchesTimePattern
  rcases h : timeFields s with - | ⟨y, m, d, hh, mi, ss⟩
  · simp [h]
  · simp only [h, Option.isSome_some, Option.some.injEq, true_and]
    constructor
    · intro hv y2 m2 d2 hh2 mi2 ss2 heq
      simp only [Prod.mk.injEq] at heq
      obtain ⟨rfl, rfl, rfl, rfl, rfl, rfl⟩ := heq
      exact hv
    · intro hall
      exact hall y m d hh mi ss rfl

/-- Witness for C4: the characterisation applied to the valid example. -/
theorem timestamp_check_characterisation_witness :
    matchesTimePattern "2025-01-19 10:00:00" = true :=
  ((timestamp_check_characterisation.2.2.2.2.2 "2025-01-19 10:00:00").mp
    timestamp_check_characterisation.1).1

/-- C5: in the extended schema, an npm repository entry whose branch is not
exactly the empty string fails with UnexpectedBranch (wrapped with the repo
context by the catch clause) and no URL is fetched; a non-npm entry whose
branch is absent or empty fails with MissingBranch, likewise before any
network call. -/
theorem branch_rule_before_fetch (fetchOracle : String → FetchResponse)
    (p : Plugin) (r : Repo) :
    (r.type = "npm" → r.branch ≠ some "" →
      validatePackageJson fetchOracle p r =
        (.error (.repoValidationFailed p.name r.url (.unexpectedBranch p.name)), [])) ∧
    (r.type ≠ "npm" → strTruthy r.branch = false →
      validatePackageJson fetchOracle p r =
        (.error (.repoValidationFailed p.name r.url (.missingBranch p.name)), [])) := by
  constructor
  · intro ht hb
    simp [validatePackageJson, validatePackageJsonTry, ht, hb]
  · intro ht hb
    simp [validatePackageJson, validatePackageJsonTry, ht, hb]

/-- Witness for C5: both branch rules at concrete repository entries, with
a fetch oracle that would fail every request were it consulted. -/
theorem branch_rule_before_fetch_witness :
    validatePackageJson failFetch baseOk npmRepoWithBranch =
      (.error (.repoValidationFailed (some "demo") (some "https://registry.npmjs.org/demo")
        (.unexpectedBranch (some "demo"))), []) ∧
    validatePackageJson failFetch baseOk githubRepoEmptyBranch =
      (.error (.repoValidationFailed (some "demo") (some "https://github.com/u/r")
        (.missingBranch (some "demo"))), []) :=
  ⟨(branch_rule_before_fetch failFetch baseOk npmRepoWithBranch).1 rfl (by decide),
   (branch_rule_before_fetch failFetch baseOk githubRepoEmptyBranch).2 (by decide) rfl⟩

/-- C6: for a record that passes the required-field and timestamp checks, a
description longer than 50 characters makes validation fail with
DescriptionTooLong, while a 50-character description never produces that
error. -/
theorem description_length_bound (p : Plugin)
    (hreq : checkRequired p requiredFields = .ok ())
    (htime : isValidTimeFormat (p.time.getD "") = true) :
    (50 < (p.description.getD "").length →
      validateBaseFields p = .error (.descriptionTooLong p.name)) ∧
    ((p.description.getD "").length = 50 →
      ∀ q, validateBaseFields p ≠ .error (.descriptionTooLong q)) := by
  have hvb := validateBaseFields_of_required_ok p hreq
  rw [htime] at hvb
  simp only [Bool.not_true, Bool.false_eq_true, if_false] at hvb
  constructor
  · intro hlen
    rw [hvb, if_pos hlen]
  · intro hlen q
    rw [hvb, if_neg (by omega)]
    repeat' split
    all_goals simp

/-- Witness for C6: the 51-character description fails with
DescriptionTooLong and the 50-character one never produces that error. -/
theorem description_length_bound_witness :
    validateBaseFields demoDesc51 = .error (.descriptionTooLong (some "demo-51")) ∧
    ∀ q, validateBaseFields demoDesc50 ≠ .error (.descriptionTooLong q) :=
  ⟨(description_length_bound demoDesc51 rfl rfl).1 (by decide),
   (description_length_bound demoDesc50 rfl rfl).2 (by decide)⟩

/-- C7 counterexample: the URL check does not require an authority — the
authority-free URL `mailto:user@example.com` parses and is accepted, yet it
has no `//`-introduced authority component. -/
theorem url_check_accepts_authority_free :
    isValidUrl "mailto:user@example.com" = true ∧
    specUrlSchemeAuthority "mailto:user@example.com" = false := by
  exact ⟨by decide, by decide⟩

/-- C7 amended: the URL check is a total boolean predicate; `not a url` is
rejected, `https://github.com/org/repo` is accepted, an authority-free URL
such as `mailto:` is also accepted, and every accepted string starts with a
URL scheme (an authority is required only for special schemes, not in
general). -/
theorem url_check_scheme_necessary :
    isValidUrl "not a url" = false ∧
    isValidUrl "https://github.com/org/repo" = true ∧
    isValidUrl "mailto:user@example.com" = true ∧
    ∀ s, isValidUrl s = true → (takeScheme s.data).isSome = true := by
  refine ⟨by decide, by decide, by decide, ?_⟩
  intro s hv
  unfold isValidUrl urlParseSucceeds at hv
  rcases hd : s.data with - | ⟨c, rest⟩
  · rw [hd] at hv
    simp at hv
  · rw [hd] at hv
    by_cases hA : c.isAlpha
    · rcases hts : takeScheme (c :: rest) with - | pr
      · simp [hts, hA] at hv
      · simp [hts]
    · simp [hA] at hv

/-- Witness for C7: the scheme-necessity direction applied to the accepted
example URL. -/
theorem url_check_scheme_necessary_witness :
    (takeScheme ("https://github.com/org/repo").data).isSome = true :=
  url_check_scheme_necessary.2.2.2 "https://github.com/org/repo"
    url_check_scheme_necessary.2.1

/-- C8 counterexample: a record of the extended schema whose type is
`github` passes the base-field, author and repository checks, so the remote
`package.json` check fetches its repository URL, and only afterwards the
record fails the local variant dispatch — a fetch is issued while a local
rule of the record is still unverified and in fact violated. -/
theorem fetch_issued_before_variant_dispatch :
    (validatePluginExt okFetch demoGithubExt).1 =
      .error (.invalidVariant (some "demo-ext") (some "github")) ∧
    (validatePluginExt okFetch demoGithubExt).2 =
      ["https://raw.githubusercontent.com/u/r/main/package.json"] := by
  exact ⟨by decide, by decide⟩

/-- C8 amended: the remote cross-validation of a record runs only after the
base-field, author and repository validation of that record have passed —
whenever any URL is fetched for a record, those three local checks
succeeded — but it runs before the variant dispatch, so the variant-specific
files rule of an app record is not yet verified at fetch time. -/
theorem fetch_requires_local_prechecks (fetchOracle : String → FetchResponse)
    (p : Plugin) (h : (validatePluginExt fetchOracle p).2 ≠ []) :
    validateBaseFieldsExt p = .ok () ∧ validateAuthor p = .ok () ∧
      validateRepo p = .ok () := by
  unfold validatePluginExt at h
  cases hb : validateBaseFieldsExt p with
  | error e => rw [hb] at h; simp at h
  | ok u =>
      cases u
      cases ha : validateAuthor p with
      | error e => rw [hb, ha] at h; simp at h
      | ok u2 =>
          cases u2
          cases hr : validateRepo p with
          | error e => rw [hb, ha, hr] at h; simp at h
          | ok u3 => cases u3; exact ⟨rfl, rfl, rfl⟩

/-- Witness for C8: the github-typed record of the counterexample did pass
the three local pre-checks. -/
theorem fetch_requires_local_prechecks_witness :
    validateBaseFieldsExt demoGithubExt = .ok () ∧
      validateAuthor demoGithubExt = .ok () ∧ validateRepo demoGithubExt = .ok () :=
  fetch_requires_local_prechecks okFetch demoGithubExt (by decide)

/-- C9: a record whose description (or name, type, or timestamp) is present
but equal to the empty string fails the required-field loop of both schema
generations with a MissingField error, rather than reaching the later
per-field rules. -/
theorem empty_string_field_is_missing (p : Plugin)
    (h : p.name = some "" ∨ p.type = some "" ∨ p.description = some "" ∨
      p.time = some "") :
    ∃ f, validateBaseFields p = .error (.missingField p.name f) ∧
      validateBaseFieldsExt p = .error (.missingField p.name f) := by
  have hex : ∃ f ∈ requiredFields, fieldTruthy p f = false := by
    rcases h with h | h | h | h
    · exact ⟨"name", by simp [requiredFields], by simp [fieldTruthy, strTruthy, h]⟩
    · exact ⟨"type", by simp [requiredFields], by simp [fieldTruthy, strTruthy, h]⟩
    · exact ⟨"description", by simp [requiredFields], by simp [fieldTruthy, strTruthy, h]⟩
    · exact ⟨"time", by simp [requiredFields], by simp [fieldTruthy, strTruthy, h]⟩
  obtain ⟨f, hcr⟩ := checkRequired_error_of_falsy p requiredFields hex
  have hext : checkRequired p requiredFieldsExt = .error (.missingField p.name f) := by
    have : requiredFieldsExt = requiredFields ++ ["home"] := rfl
    rw [this]
    exact checkRequired_append_error p ["home"] requiredFields _ hcr
  exact ⟨f, validateBaseFields_error_of_required p _ hcr,
    validateBaseFieldsExt_error_of_required p _ hext⟩

/-- Witness for C9: the record with an empty-string description fails both
schema generations with a MissingField error. -/
theorem empty_string_field_is_missing_witness :
    ∃ f, validateBaseFields demoEmptyDescription =
        .error (.missingField (some "demo-empty-desc") f) ∧
      validateBaseFieldsExt demoEmptyDescription =
        .error (.missingField (some "demo-empty-desc") f) :=
  empty_string_field_is_missing demoEmptyDescription (Or.inr (Or.inr (Or.inl rfl)))

/-- C10: a collection with at least two records lacking a `name` property
fails with DuplicateName — the absent names collide in the seen-names set —
before any per-record MissingField error could be reported. -/
theorem nameless_records_collide (ps : List Plugin)
    (h : 2 ≤ (ps.filter (fun p => p.name.isNone)).length) :
    ∃ n, validatePlugins ps = .error (.duplicateName n) :=
  validatePlugins_error_of_dup ps (two_nameless_not_nodup ps h)

/-- Witness for C10: the pair of nameless records fails with
DuplicateName. -/
theorem nameless_records_collide_witness :
    ∃ n, validatePlugins namelessPair = .error (.duplicateName n) :=
  nameless_records_collide namelessPair (by decide)
